import Mathlib

/-!
Verification of the prompt/answer pairing and cross-source normalization
pipeline of the `ai-tooling` repository
(`tools/prompt-analysis/export_pairs/main.py` and
`tools/prompt-analysis/stats/main.py`).

The Python source is shallowly embedded: each Lean definition mirrors the
corresponding Python function; Python dictionaries carrying the normalized
message shape become the `RawMessage` structure, the tuple appended by
`pair_messages` becomes `PromptAnswerPair`, and `datetime` values become the
`PyDateTime` type.  Machine-level details that the claims do not touch
(filesystem walking, JSON decoding, the tiktoken tokenizer object) are
abstracted as parameters, exactly where the Python code receives them as
opaque inputs.
-/

/-! ## Python string primitives

Helpers mirroring the Python string operations used by the pipeline, written
over `List Char` so that every definition reduces in the kernel.  Python
strings compare and split by code point, as these do. -/

/-- Character-list version of Python `haystack.startswith(needle)`:
`hasPre needle hay` is true when `needle` is an initial segment of `hay`. -/
def hasPre : List Char → List Char → Bool
  | [], _ => true
  | _ :: _, [] => false
  | a :: as, b :: bs => a == b && hasPre as bs

/-- Character-list version of Python `needle in haystack`. -/
def hasSub (needle : List Char) : List Char → Bool
  | [] => needle.isEmpty
  | c :: t => hasPre needle (c :: t) || hasSub needle t

/-- Python `s.startswith(pat)`. -/
def strStarts (s pat : String) : Bool := hasPre pat.data s.data

/-- Python `pat in s`. -/
def strHasSub (s pat : String) : Bool := hasSub pat.data s.data

/-- Drop leading whitespace characters, as Python `lstrip()` does. -/
def dropWs : List Char → List Char
  | [] => []
  | c :: t => if c.isWhitespace then dropWs t else c :: t

/-- Python `s.lstrip()`. -/
def pyLstrip (s : String) : String := String.mk (dropWs s.data)

/-- Python `s.strip()`. -/
def pyStrip (s : String) : String :=
  String.mk ((dropWs (dropWs s.data).reverse).reverse)

/-- Word counter for Python `len(s.split())`: counts maximal runs of
non-whitespace characters.  The boolean argument records whether the scan is
currently inside a word. -/
def countWordsAux : List Char → Bool → Nat
  | [], _ => 0
  | c :: t, inw =>
    if c.isWhitespace then countWordsAux t false
    else (if inw then 0 else 1) + countWordsAux t true

/-- Python `len(s.split())`: number of whitespace-separated words. -/
def countWords (s : String) : Nat := countWordsAux s.data false

/-- Code-point lexicographic comparison of character lists, the order Python
uses to compare strings. -/
def charsLe : List Char → List Char → Bool
  | [], _ => true
  | _ :: _, [] => false
  | a :: as, b :: bs => if a == b then charsLe as bs else decide (a < b)

/-- Python string `<=`. -/
def strLeb (a b : String) : Bool := charsLe a.data b.data

/-- Insert an element into an already sorted list, after every element that
compares `le` to it; this is the tie order a stable sort produces. -/
def insertSorted (le : α → α → Bool) (a : α) : List α → List α
  | [] => [a]
  | b :: bs => if le b a then b :: insertSorted le a bs else a :: b :: bs

/-- Stable insertion sort.  Python `sorted` is also a stable sort, and any two
stable sorts under the same total preorder agree, so this models `sorted`
extensionally while staying kernel-computable. -/
def stableSort (le : α → α → Bool) (l : List α) : List α :=
  l.foldl (fun acc x => insertSorted le x acc) []

/-! ## Python datetime values

The pipeline builds `datetime` values in exactly two ways: `parse_iso`
(claude loader) calls `datetime.fromisoformat` on a `Z`-suffixed ISO string
after replacing `Z` by `+00:00`, producing a timezone-aware UTC value, and
the opencode loader calls `datetime.fromtimestamp(created_ms / 1000.0)`,
producing a naive value.  `PyDateTime` carries the kind and the instant as
milliseconds since `datetime.min` (0001-01-01T00:00:00), which makes
`datetime.min` the smallest representable value, as in Python. -/

inductive PyDateTime : Type where
  | awareUTC : Nat → PyDateTime
  | naive : Nat → PyDateTime
deriving DecidableEq, Repr

/-- Milliseconds since `datetime.min`, used to compare datetime values. -/
def PyDateTime.ms : PyDateTime → Nat
  | .awareUTC m => m
  | .naive m => m

/-- Python `datetime.min`. -/
def datetimeMin : PyDateTime := .naive 0

/-- Milliseconds from 0001-01-01 to 1970-01-01, the Unix epoch offset in this
representation (719162 days). -/
def epochOffsetMs : Nat := 719162 * 86400000

/-- The opencode loader line `datetime.fromtimestamp(created_ms / 1000.0)`:
a naive datetime at the given epoch milliseconds (the model renders it in
UTC; the local-zone shift does not affect any property proved here). -/
def fromTimestampMs (createdMs : Nat) : PyDateTime :=
  .naive (epochOffsetMs + createdMs)

/-- Decimal digit character, as Python number formatting produces. -/
def digitChar (d : Nat) : Char := Char.ofNat (48 + d)

/-- Digits of a natural number, most significant first, prepended to `acc`;
mirrors Python decimal rendering of nonnegative integers.  The first argument
is descent fuel (as in the core `Nat.toDigitsCore`), keeping the recursion
structural; `natChars` supplies enough fuel for every input. -/
def natDigitsCore : Nat → Nat → List Char → List Char
  | 0, _, acc => acc
  | fuel + 1, n, acc =>
    let acc' := digitChar (n % 10) :: acc
    if n < 10 then acc' else natDigitsCore fuel (n / 10) acc'

/-- Python `str(n)` for a natural number, as a character list. -/
def natChars (n : Nat) : List Char := natDigitsCore (n + 1) n []

/-- Zero-pad a digit string on the left to width `w`, as Python `%0wd`. -/
def padChars (w : Nat) (l : List Char) : List Char :=
  List.replicate (w - l.length) '0' ++ l

/-- Calendar components of an instant, proleptic Gregorian, from milliseconds
since 0001-01-01; the conversion Python `datetime` performs internally.
Returns (year, month, day, hour, minute, second, microsecond). -/
def civilOfMs (msTotal : Nat) : Nat × Nat × Nat × Nat × Nat × Nat × Nat :=
  let daysSinceMin := msTotal / 86400000
  let msOfDay := msTotal % 86400000
  let hour := msOfDay / 3600000
  let minute := msOfDay % 3600000 / 60000
  let second := msOfDay % 60000 / 1000
  let micro := msOfDay % 1000 * 1000
  let z := daysSinceMin + 306
  let era := z / 146097
  let doe := z % 146097
  let yoe := (doe - doe / 1460 + doe / 36524 - doe / 146096) / 365
  let y := yoe + era * 400
  let doy := doe - (365 * yoe + yoe / 4 - yoe / 100)
  let mp := (5 * doy + 2) / 153
  let day := doy - (153 * mp + 2) / 5 + 1
  let month := if mp < 10 then mp + 3 else mp - 9
  let year := if month ≤ 2 then y + 1 else y
  (year, month, day, hour, minute, second, micro)

/-- Rendering of calendar components in the shape `datetime.isoformat()`
produces: `YYYY-MM-DDTHH:MM:SS`, extended with `.ffffff` exactly when the
microsecond field is nonzero. -/
def isoRender (year month day hour minute second micro : Nat) : List Char :=
  padChars 4 (natChars year) ++ ['-'] ++ padChars 2 (natChars month) ++ ['-'] ++
    padChars 2 (natChars day) ++ ['T'] ++ padChars 2 (natChars hour) ++ [':'] ++
    padChars 2 (natChars minute) ++ [':'] ++
    (padChars 2 (natChars second) ++
      (if micro = 0 then [] else '.' :: padChars 6 (natChars micro)))

/-- The offset-free part of Python `datetime.isoformat()` at an instant. -/
def isoCoreChars (msTotal : Nat) : List Char :=
  match civilOfMs msTotal with
  | (year, month, day, hour, minute, second, micro) =>
    isoRender year month day hour minute second micro

/-- Python `datetime.isoformat()` on the two kinds of value the pipeline
produces: aware-UTC values append the `+00:00` offset, naive values carry no
offset at all.  Neither form uses the `Z` suffix. -/
def isoformat : PyDateTime → String
  | .awareUTC msTotal => String.mk (isoCoreChars msTotal ++ ['+', '0', '0', ':', '0', '0'])
  | .naive msTotal => String.mk (isoCoreChars msTotal)

/-! ## The normalized message shape (RawMessage) -/

/-- The normalized message dictionary produced by `load_claude_messages` and
`load_opencode_messages` (`export_pairs/main.py`): both loaders append
exactly these keys. -/
structure RawMessage : Type where
  source : String
  sessionId : String
  role : String
  text : String
  time : Option PyDateTime
  title : Option String
  model : Option String
  provider : Option String
  agent : Option String
  mode : Option String
  tools : List String
deriving DecidableEq, Repr

/-- Python truthiness of an optional string: `None` and the empty string are
falsy.  Used wherever the source writes `if value:` on such a field. -/
def optTruthy : Option String → Bool
  | none => false
  | some s => !(s == "")

/-! ## count_tokens (`export_pairs/main.py` lines 36-41) -/

/-- `count_tokens(text, tokenizer)`: 0 for null or empty text; the
whitespace-split word count when no tokenizer is available; otherwise the
length of the tokenizer encoding, abstracted as the function the tokenizer
object denotes. -/
def count_tokens (text : Option String) (tokenizer : Option (String → Nat)) : Nat :=
  match text with
  | none => 0
  | some t =>
    if t == "" then 0
    else
      match tokenizer with
      | none => countWords t
      | some tok => tok t

/-! ## pair_messages (`export_pairs/main.py` lines 297-344) -/

/-- The `prompt_meta` dictionary built on each user message. -/
structure PromptMeta : Type where
  source : Option String
  model : Option String
  provider : Option String
  agent : Option String
  mode : Option String
deriving DecidableEq, Repr

/-- The `answer_meta` dictionary accumulated over assistant messages. -/
structure AnswerMeta : Type where
  model : Option String
  provider : Option String
  agent : Option String
  mode : Option String
  tools : List String
deriving DecidableEq, Repr

/-- The fresh `answer_meta` dictionary installed on each user message. -/
def freshAnswerMeta : AnswerMeta :=
  { model := none, provider := none, agent := none, mode := none, tools := [] }

/-- Python `set.add`: the tools field models the Python set as a duplicate-free
list in insertion order; membership is what every use of the set observes. -/
def addTool (ts : List String) (t : String) : List String :=
  if t ∈ ts then ts else ts ++ [t]

/-- The assistant branch of `pair_messages` updating `answer_meta`: each of
model/provider/agent/mode is overwritten only when the incoming value is
truthy, and the tool names of the message are unioned into the set. -/
def updateAnswerMeta (am : AnswerMeta) (m : RawMessage) : AnswerMeta :=
  let am := if optTruthy m.model then { am with model := m.model } else am
  let am := if optTruthy m.provider then { am with provider := m.provider } else am
  let am := if optTruthy m.agent then { am with agent := m.agent } else am
  let am := if optTruthy m.mode then { am with mode := m.mode } else am
  { am with tools := m.tools.foldl addTool am.tools }

/-- One element of the `pairs` list built by `pair_messages`.  The source
appends the tuple
`(current_prompt, "\n".join(answer_parts), prompt_time, answer_time, title,
prompt_meta, answer_meta)`; here the still-unjoined `answer_parts` list is
kept and the joined string is exposed as `PromptAnswerPair.answer`, which
carries the same information (the join is applied where the record is
consumed). -/
structure PromptAnswerPair : Type where
  prompt : String
  answerParts : List String
  promptTime : Option PyDateTime
  answerTime : Option PyDateTime
  title : Option String
  promptMeta : PromptMeta
  answerMeta : AnswerMeta
deriving DecidableEq, Repr

/-- The `"\n".join(answer_parts)` field of the emitted tuple. -/
def PromptAnswerPair.answer (p : PromptAnswerPair) : String :=
  String.intercalate "\n" p.answerParts

/-- The local variables of `pair_messages` between loop iterations. -/
structure PairState : Type where
  pairs : List PromptAnswerPair
  currentPrompt : Option String
  promptTime : Option PyDateTime
  title : Option String
  promptMeta : PromptMeta
  answerParts : List String
  answerTime : Option PyDateTime
  answerMeta : AnswerMeta
deriving DecidableEq, Repr

/-- The variable initialization at the top of `pair_messages`.  The initial
`prompt_meta` and `answer_meta` are the empty dictionaries; they are
unobservable because a flush requires a truthy `current_prompt`, which only a
user message (installing fresh dictionaries) establishes. -/
def initPairState : PairState :=
  { pairs := []
    currentPrompt := none
    promptTime := none
    title := none
    promptMeta := { source := none, model := none, provider := none, agent := none, mode := none }
    answerParts := []
    answerTime := none
    answerMeta := freshAnswerMeta }

/-- The tuple appended by `pairs.append(...)` at a flush point. -/
def mkPair (st : PairState) : PromptAnswerPair :=
  { prompt := st.currentPrompt.getD ""
    answerParts := st.answerParts
    promptTime := st.promptTime
    answerTime := st.answerTime
    title := st.title
    promptMeta := st.promptMeta
    answerMeta := st.answerMeta }

/-- Whether `current_prompt and answer_parts` holds, the flush guard. -/
def flushGuard (st : PairState) : Bool :=
  optTruthy st.currentPrompt && !st.answerParts.isEmpty

/-- The body of the `for msg in session_messages` loop of `pair_messages`. -/
def pairStep (st : PairState) (m : RawMessage) : PairState :=
  if m.role == "user" then
    let st :=
      if flushGuard st then { st with pairs := st.pairs ++ [mkPair st] } else st
    { st with
      currentPrompt := some m.text
      promptTime := m.time
      title := m.title
      promptMeta :=
        { source := some m.source, model := m.model, provider := m.provider,
          agent := m.agent, mode := m.mode }
      answerParts := []
      answerTime := none
      answerMeta := freshAnswerMeta }
  else if m.role == "assistant" && optTruthy st.currentPrompt then
    { st with
      answerParts := st.answerParts ++ [m.text]
      answerTime := m.time
      answerMeta := updateAnswerMeta st.answerMeta m }
  else st

/-- `pair_messages(session_messages)`: fold the loop body over the messages,
then perform the trailing flush `if current_prompt and answer_parts`. -/
def pair_messages (session_messages : List RawMessage) : List PromptAnswerPair :=
  let st := session_messages.foldl pairStep initPairState
  if flushGuard st then st.pairs ++ [mkPair st] else st.pairs

/-! ## sort_messages (`export_pairs/main.py` lines 347-351) -/

/-- The sort key `m.get("time") or datetime.min` as an instant.  Python
compares these keys as datetime objects, which is defined only between two
aware or two naive values; `sortKeyKindsMixed` below captures the remaining
case, where the comparison raises `TypeError`. -/
def msgKey (m : RawMessage) : Nat := (m.time.getD datetimeMin).ms

/-- `sort_messages(messages)`: the list Python `sorted` returns whenever every
key comparison is defined, i.e. when the keys are uniformly aware or
uniformly naive; modeled by a stable sort under the millisecond order
(Python `sorted` is also stable).  The raising path of the real call is
`sortMessagesChecked`. -/
def sort_messages (messages : List RawMessage) : List RawMessage :=
  stableSort (fun a b => msgKey a ≤ msgKey b) messages

/-- Whether a datetime value carries a timezone. -/
def PyDateTime.isAware : PyDateTime → Bool
  | .awareUTC _ => true
  | .naive _ => false

/-- Whether the sort keys of a session mix aware and naive datetimes — e.g.
a claude session (aware `parse_iso` timestamps) containing a message with a
missing timestamp, whose fallback key `datetime.min` is naive. -/
def sortKeyKindsMixed (messages : List RawMessage) : Bool :=
  (messages.any fun m => (m.time.getD datetimeMin).isAware) &&
    messages.any fun m => !(m.time.getD datetimeMin).isAware

/-- The `sorted` call of `sort_messages` with its failure path: whenever both
key kinds occur, CPython compares some mixed pair (run detection and binary
insertion both compare a newly reached element against its uniform prefix)
and raises `TypeError`, aborting the run; when the kinds agree it returns
the stably sorted list. -/
def sortMessagesChecked (messages : List RawMessage) : Except String (List RawMessage) :=
  if sortKeyKindsMixed messages then
    Except.error "TypeError: can't compare offset-naive and offset-aware datetimes"
  else Except.ok (sort_messages messages)

/-! ## Output serialization (`export_pairs/main.py` main, lines 354-432) -/

/-- `pt.isoformat() if pt else None` (a datetime object is always truthy, so
the Python conditional tests presence). -/
def serializeTime : Option PyDateTime → Option String
  | none => none
  | some t => some (isoformat t)

/-- The flat JSON record written per pair by `main` (lines 410-428). -/
structure OutputRow : Type where
  session_id : String
  session_title : Option String
  source : Option String
  prompt : String
  answer : String
  prompt_tokens : Nat
  answer_tokens : Nat
  total_tokens : Nat
  prompt_time : Option String
  answer_time : Option String
  prompt_model : Option String
  prompt_provider : Option String
  answer_model : Option String
  answer_provider : Option String
  answer_agent : Option String
  answer_mode : Option String
  answer_tools : List String
deriving DecidableEq, Repr

/-- Construction of one output row from an emitted pair, following the body of
the `for prompt, answer, ... in pairs` loop: token counting, the
`sorted(list(answer_meta.get("tools", [])))` list, and timestamp
serialization. -/
def buildRow (sessionId : String) (tokenizer : Option (String → Nat))
    (p : PromptAnswerPair) : OutputRow :=
  let promptTokens := count_tokens (some p.prompt) tokenizer
  let answerTokens := count_tokens (some p.answer) tokenizer
  { session_id := sessionId
    session_title := p.title
    source := p.promptMeta.source
    prompt := p.prompt
    answer := p.answer
    prompt_tokens := promptTokens
    answer_tokens := answerTokens
    total_tokens := promptTokens + answerTokens
    prompt_time := serializeTime p.promptTime
    answer_time := serializeTime p.answerTime
    prompt_model := p.promptMeta.model
    prompt_provider := p.promptMeta.provider
    answer_model := p.answerMeta.model
    answer_provider := p.answerMeta.provider
    answer_agent := p.answerMeta.agent
    answer_mode := p.answerMeta.mode
    answer_tools := stableSort strLeb p.answerMeta.tools }

/-! ## Merging the two sources and the downstream gate

`main` builds `all_sessions` as `{}`, then `update(claude_messages)`, then for
each opencode session `setdefault(key, []).extend(value)`.  The loaders return
dictionaries, so keys within each mapping are unique; the mapping is modeled
as an association list in insertion order. -/

/-- One `setdefault(key, []).extend(value)` step of the merge: when the key is
already present, its message list is extended in place; otherwise the entry is
appended (dictionary insertion order). -/
def mergeStep (acc : List (String × List RawMessage)) (kv : String × List RawMessage) :
    List (String × List RawMessage) :=
  if acc.any (fun p => p.1 == kv.1) then
    acc.map (fun p => if p.1 == kv.1 then (p.1, p.2 ++ kv.2) else p)
  else acc ++ [kv]

/-- The `all_sessions` merge (lines 395-398). -/
def mergeSessions (claude opencode : List (String × List RawMessage)) :
    List (String × List RawMessage) :=
  opencode.foldl mergeStep claude

/-- The rows `main` writes to `pairs.jsonl`: for every session, sort the
messages, pair them, and serialize each pair (lines 402-430).  This follows
the value path of `sorted`; on a session whose keys mix aware and naive
datetimes the real loop instead propagates the `TypeError` of
`sortMessagesChecked` and aborts the run. -/
def exportRows (sessions : List (String × List RawMessage))
    (tokenizer : Option (String → Nat)) : List OutputRow :=
  sessions.flatMap fun kv => (pair_messages (sort_messages kv.2)).map (buildRow kv.1 tokenizer)

/-- The stats-stage gate (`stats/main.py` lines 190-192):
`if not pairs: raise SystemExit("No pairs found. Run export_pairs.py first.")`.
`SystemExit` with a string message prints it and exits with status 1, the
failure signal; modeled as `Except.error` carrying the message. -/
def statsGate (pairs : List OutputRow) : Except String (List OutputRow) :=
  if pairs.isEmpty then Except.error "No pairs found. Run export_pairs.py first."
  else Except.ok pairs

/-- The two-stage pipeline on loaded sessions: export the pair rows, then run
the stats-stage gate on them. -/
def pipelineRun (claude opencode : List (String × List RawMessage))
    (tokenizer : Option (String → Nat)) : Except String (List OutputRow) :=
  statsGate (exportRows (mergeSessions claude opencode) tokenizer)

/-! ## The opencode loader, per message
(`load_opencode_messages`, `export_pairs/main.py` lines 233-294) -/

/-- Python `value or None` on an optional string: empty strings collapse to
`None`. -/
def orNone (o : Option String) : Option String :=
  if optTruthy o then o else none

/-- One on-disk opencode message file, after JSON decoding: the fields the
loader reads.  `model` is the nested `{"modelID": ..., "providerID": ...}`
dictionary when present; `timeCreated` is `time.created` when it is an
integer (epoch milliseconds); `partsText` abstracts
`extract_opencode_parts(part_dir, message_id, ...)`, the text assembled from
the companion part files of this message. -/
structure OcMessage : Type where
  sessionID : Option String
  role : Option String
  modelID : Option String
  providerID : Option String
  modelDict : Option (Option String × Option String)
  agent : Option String
  mode : Option String
  timeCreated : Option Nat
  partsText : String
deriving Repr

/-- The per-message body of the `load_opencode_messages` loop (lines
251-293): role filtering, metadata extraction with the nested-model fallback,
timestamp conversion, the text filters, and the appended normalized
dictionary.  Returns `none` when the loop `continue`s without appending.
`titles` abstracts the session-title mapping; `includeSystem`,
`excludeSuggestionMode` and `includeIdeEvents` are the loader options. -/
def opencodeMessageToRaw (titles : String → Option String)
    (includeSystem excludeSuggestionMode includeIdeEvents : Bool)
    (msg : OcMessage) : Option RawMessage :=
  let sessionId := msg.sessionID.getD "unknown"
  let roleVal := msg.role.getD ""
  if !includeSystem && !(roleVal == "user" || roleVal == "assistant") then none
  else
    let modelId0 := orNone msg.modelID
    let providerId0 := orNone msg.providerID
    let modelId :=
      if !(optTruthy modelId0) then
        match msg.modelDict with
        | some md => md.1
        | none => modelId0
      else modelId0
    let providerId :=
      if !(optTruthy modelId0) then
        match msg.modelDict with
        | some md => md.2
        | none => providerId0
      else providerId0
    let created := msg.timeCreated.map fromTimestampMs
    let text := msg.partsText
    if excludeSuggestionMode && strStarts (pyLstrip text) "[SUGGESTION MODE:" then none
    else if !includeIdeEvents && strHasSub text "<ide_opened_file>" then none
    else if strStarts (pyStrip text) "[Request interrupted by user for tool use]" then none
    else if pyStrip text == "" then none
    else
      some
        { source := "opencode"
          sessionId := sessionId
          role := roleVal
          text := text
          time := created
          title := titles sessionId
          model := modelId
          provider := providerId
          agent := orNone msg.agent
          mode := orNone msg.mode
          tools := [] }

/-! ## Concrete inputs used by witnesses and counterexamples -/

/-- A claude-style normalized user message with text `s` at instant `t`. -/
def mkUserMsg (s : String) (t : Nat) : RawMessage :=
  { source := "claude", sessionId := "s", role := "user", text := s,
    time := some (.awareUTC t), title := none, model := none, provider := none,
    agent := none, mode := none, tools := [] }

/-- A claude-style normalized assistant message with text `s` at instant `t`,
no metadata and no tools. -/
def mkAsstMsg (s : String) (t : Nat) : RawMessage :=
  { source := "claude", sessionId := "s", role := "assistant", text := s,
    time := some (.awareUTC t), title := none, model := none, provider := none,
    agent := none, mode := none, tools := [] }

/-- An assistant message carrying a model value and tool names. -/
def mkAsstMeta (s : String) (t : Nat) (model : Option String) (tools : List String) :
    RawMessage :=
  { source := "claude", sessionId := "s", role := "assistant", text := s,
    time := some (.awareUTC t), title := none, model := model,
    provider := none, agent := none, mode := none, tools := tools }

/-- The session `[user A, assistant B, user C, assistant D]` of the spec. -/
def exSessionABCD : List RawMessage :=
  [mkUserMsg "A" 1, mkAsstMsg "B" 2, mkUserMsg "C" 3, mkAsstMsg "D" 4]

/-- The session `[user A, user C, assistant D]` of the spec. -/
def exSessionACD : List RawMessage :=
  [mkUserMsg "A" 1, mkUserMsg "C" 2, mkAsstMsg "D" 3]

/-- The session `[user A, assistant B1, assistant B2]` of the spec. -/
def exSessionAB1B2 : List RawMessage :=
  [mkUserMsg "A" 1, mkAsstMsg "B1" 2, mkAsstMsg "B2" 3]

/-- An accumulating state: open prompt `"A"` with one assistant part
appended, as after processing `[user A, assistant B]`. -/
def exAccumState : PairState :=
  { pairs := []
    currentPrompt := some "A"
    promptTime := some (.awareUTC 1)
    title := none
    promptMeta := { source := some "claude", model := none, provider := none,
                    agent := none, mode := none }
    answerParts := ["B"]
    answerTime := some (.awareUTC 2)
    answerMeta := freshAnswerMeta }

/-- Session in which a later assistant message carries the empty string in its
model field: `[user A, assistant B1 (model "m1"), assistant B2 (model "")]`. -/
def exSessionEmptyModel : List RawMessage :=
  [mkUserMsg "A" 1, mkAsstMeta "B1" 2 (some "m1") [], mkAsstMeta "B2" 3 (some "") []]

/-- Turn whose assistant messages carry tool sets `{x}` then `{x, y}`. -/
def exSessionToolsXY : List RawMessage :=
  [mkUserMsg "A" 1, mkAsstMeta "B1" 2 none ["x"], mkAsstMeta "B2" 3 none ["x", "y"]]

/-- The same turn with the two assistant messages swapped. -/
def exSessionToolsYX : List RawMessage :=
  [mkUserMsg "A" 1, mkAsstMeta "B1" 2 none ["x", "y"], mkAsstMeta "B2" 3 none ["x"]]

/-- A message with no timestamp. -/
def exMsgNoTime : RawMessage :=
  { source := "claude", sessionId := "s", role := "user", text := "late-file",
    time := none, title := none, model := none, provider := none,
    agent := none, mode := none, tools := [] }

/-- A session mixing an aware timestamp with a missing one: the fallback key
`datetime.min` is naive, so the key kinds are mixed and the real sort raises
`TypeError` on this input. -/
def exSessionMixedTimes : List RawMessage :=
  [mkUserMsg "timed" 5, exMsgNoTime]

/-- A user message carrying a naive (opencode-style) timestamp. -/
def exMsgNaiveTimed : RawMessage :=
  { source := "opencode", sessionId := "s", role := "user", text := "timed",
    time := some (.naive 5), title := none, model := none, provider := none,
    agent := none, mode := none, tools := [] }

/-- A session whose sort keys are uniformly naive: one naive-timestamped
message arriving before one with a missing timestamp (fallback key
`datetime.min`, also naive) — the real sort returns on this input. -/
def exSessionNaiveKeys : List RawMessage :=
  [exMsgNaiveTimed, exMsgNoTime]

/-- An opencode source carrying one session with a single (answerless) user
message: enough for export to run but produce zero pairs. -/
def exOpencodeOnlySessions : List (String × List RawMessage) :=
  [("s", [mkUserMsg "A" 1])]

/-- A complete one-turn session used to inspect serialized output rows. -/
def exSessionSerialized : List (String × List RawMessage) :=
  [("s", [mkUserMsg "A" 0, mkAsstMsg "B" 1000])]

/-- A concrete on-disk opencode assistant message. -/
def exOcMessage : OcMessage :=
  { sessionID := some "s", role := some "assistant", modelID := some "gpt-x",
    providerID := some "openai", modelDict := none, agent := none, mode := none,
    timeCreated := some 1000, partsText := "hello" }

/-- Last value of a list of optional strings under Python truthiness: the
accumulator is overwritten exactly when the incoming value is truthy.  This is
what the `answer_meta` update loop computes per field. -/
def lastTruthy (l : List (Option String)) : Option String :=
  l.foldl (fun acc o => if optTruthy o then o else acc) none

/-- Modelled from the spec: the last non-null value seen across a list of
nullable fields (null values never overwrite).  Stated from the words of the
spec for comparison against what the code computes. -/
def lastNonNull (l : List (Option String)) : Option String :=
  l.foldl (fun acc o => if o.isSome then o else acc) none

/-- The pair emitted for `exSessionSerialized`. -/
def exSerializedPair : PromptAnswerPair :=
  { prompt := "A", answerParts := ["B"], promptTime := some (.awareUTC 0),
    answerTime := some (.awareUTC 1000), title := none,
    promptMeta := { source := some "claude", model := none, provider := none,
                    agent := none, mode := none },
    answerMeta := freshAnswerMeta }

/-- The normalized message the opencode loader produces for `exOcMessage`
(with an empty title mapping and default options). -/
def exOcRaw : RawMessage :=
  { source := "opencode", sessionId := "s", role := "assistant", text := "hello",
    time := some (fromTimestampMs 1000), title := none, model := some "gpt-x",
    provider := some "openai", agent := none, mode := none, tools := [] }

/-- Number of user messages in a session message list. -/
def countUsers (msgs : List RawMessage) : Nat :=
  (msgs.filter (fun m => m.role == "user")).length

/-- 1 when a pair is open (truthy pending prompt), else 0; the bookkeeping
quantity of the pair-count invariant. -/
def promptBit (st : PairState) : Nat :=
  if optTruthy st.currentPrompt then 1 else 0

/-- The `prompt_meta` dictionary a user message installs. -/
def promptMetaOf (m : RawMessage) : PromptMeta :=
  { source := some m.source, model := m.model, provider := m.provider,
    agent := m.agent, mode := m.mode }

/-! ## Laws of the pairing loop -/

theorem pairStep_user_flush (st : PairState) (m : RawMessage)
    (hrole : m.role = "user") (hp : optTruthy st.currentPrompt = true)
    (hparts : st.answerParts ≠ []) :
    pairStep st m =
      { pairs := st.pairs ++ [mkPair st]
        currentPrompt := some m.text
        promptTime := m.time
        title := m.title
        promptMeta := promptMetaOf m
        answerParts := []
        answerTime := none
        answerMeta := freshAnswerMeta } := by
  have hguard : flushGuard st = true := by
    simp [flushGuard, hp, List.isEmpty_iff, hparts]
  simp [pairStep, hrole, hguard, promptMetaOf]

theorem pairStep_user_noflush (st : PairState) (m : RawMessage)
    (hrole : m.role = "user") (hparts : st.answerParts = []) :
    pairStep st m =
      { pairs := st.pairs
        currentPrompt := some m.text
        promptTime := m.time
        title := m.title
        promptMeta := promptMetaOf m
        answerParts := []
        answerTime := none
        answerMeta := freshAnswerMeta } := by
  have hguard : flushGuard st = false := by
    simp [flushGuard, hparts]
  simp [pairStep, hrole, hguard, promptMetaOf]

theorem pairStep_user_opens (st : PairState) (m : RawMessage)
    (hrole : m.role = "user") :
    ∃ l,
      pairStep st m =
        { pairs := st.pairs ++ l
          currentPrompt := some m.text
          promptTime := m.time
          title := m.title
          promptMeta := promptMetaOf m
          answerParts := []
          answerTime := none
          answerMeta := freshAnswerMeta } := by
  by_cases hg : flushGuard st = true
  · refine ⟨[mkPair st], ?_⟩
    simp [pairStep, hrole, hg, promptMetaOf]
  · refine ⟨[], ?_⟩
    simp only [Bool.not_eq_true] at hg
    simp [pairStep, hrole, hg, promptMetaOf]

theorem pairStep_assistant (st : PairState) (m : RawMessage)
    (hrole : m.role = "assistant") (hp : optTruthy st.currentPrompt = true) :
    pairStep st m =
      { st with
        answerParts := st.answerParts ++ [m.text]
        answerTime := m.time
        answerMeta := updateAnswerMeta st.answerMeta m } := by
  simp [pairStep, hrole, hp]

theorem pairStep_pairs_cases (st : PairState) (m : RawMessage) :
    (pairStep st m).pairs = st.pairs ∨
      (pairStep st m).pairs = st.pairs ++ [mkPair st] := by
  unfold pairStep
  split
  · split
    · right; rfl
    · left; rfl
  · split
    · left; rfl
    · left; rfl

theorem foldl_pairStep_pairs_mono (msgs : List RawMessage) (st : PairState) :
    ∃ l, (List.foldl pairStep st msgs).pairs = st.pairs ++ l := by
  induction msgs generalizing st with
  | nil => exact ⟨[], by simp⟩
  | cons m rest ih =>
    obtain ⟨l, hl⟩ := ih (pairStep st m)
    rcases pairStep_pairs_cases st m with h | h
    · exact ⟨l, by rw [List.foldl_cons, hl, h]⟩
    · exact ⟨[mkPair st] ++ l, by rw [List.foldl_cons, hl, h, List.append_assoc]⟩

theorem foldl_pairStep_assistants (suf : List RawMessage) (st : PairState)
    (p : String) (hc : st.currentPrompt = some p) (hp : (p == "") = false)
    (hall : ∀ m ∈ suf, m.role = "assistant") :
    List.foldl pairStep st suf =
      { st with
        answerParts := st.answerParts ++ suf.map RawMessage.text
        answerTime := ((suf.getLast?).map RawMessage.time).getD st.answerTime
        answerMeta := suf.foldl updateAnswerMeta st.answerMeta } := by
  induction suf generalizing st with
  | nil => simp
  | cons m rest ih =>
    have hrole : m.role = "assistant" := hall m (by simp)
    have htr : optTruthy st.currentPrompt = true := by
      simp [hc, optTruthy, hp]
    rw [List.foldl_cons, pairStep_assistant st m hrole htr,
      ih _ (by simp [hc]) (fun x hx => hall x (by simp [hx]))]
    cases rest with
    | nil => simp
    | cons r rs =>
      obtain ⟨x, hx⟩ := Option.isSome_iff_exists.mp
        (by simp [List.getLast?_isSome] : (r :: rs).getLast?.isSome)
      simp [List.getLast?_cons_cons, List.append_assoc, hx]

theorem flushGuard_parts (st : PairState) (h : flushGuard st = true) :
    st.answerParts ≠ [] := by
  have := h
  simp [flushGuard, List.isEmpty_iff] at this
  exact this.2

theorem flushGuard_prompt (st : PairState) (h : flushGuard st = true) :
    optTruthy st.currentPrompt = true := by
  have := h
  simp [flushGuard] at this
  exact this.1

theorem pairStep_pairs_flush_cases (st : PairState) (m : RawMessage) :
    (pairStep st m).pairs = st.pairs ∨
      (flushGuard st = true ∧ (pairStep st m).pairs = st.pairs ++ [mkPair st]) := by
  unfold pairStep
  split
  · split
    next hg => exact Or.inr ⟨hg, rfl⟩
    · exact Or.inl rfl
  · split
    · exact Or.inl rfl
    · exact Or.inl rfl

theorem pairStep_not_user (st : PairState) (m : RawMessage)
    (h : (m.role == "user") = false) :
    (pairStep st m).pairs = st.pairs ∧
      (pairStep st m).currentPrompt = st.currentPrompt := by
  unfold pairStep
  rw [h]
  simp only [Bool.false_eq_true, if_false]
  split
  · exact ⟨rfl, rfl⟩
  · exact ⟨rfl, rfl⟩

theorem foldl_pairStep_parts_nonempty (msgs : List RawMessage) (st : PairState)
    (h : ∀ q ∈ st.pairs, q.answerParts ≠ []) :
    ∀ q ∈ (List.foldl pairStep st msgs).pairs, q.answerParts ≠ [] := by
  induction msgs generalizing st with
  | nil => exact h
  | cons m rest ih =>
    rw [List.foldl_cons]
    refine ih (pairStep st m) ?_
    rcases pairStep_pairs_flush_cases st m with hc | ⟨hg, hc⟩
    · rw [hc]; exact h
    · rw [hc]
      intro q hq
      rcases List.mem_append.mp hq with hq | hq
      · exact h q hq
      · have hq' : q = mkPair st := by simpa using hq
        rw [hq']
        exact flushGuard_parts st hg

theorem pair_messages_parts_nonempty (msgs : List RawMessage) :
    ∀ q ∈ pair_messages msgs, q.answerParts ≠ [] := by
  unfold pair_messages
  intro q hq
  have hinv := foldl_pairStep_parts_nonempty msgs initPairState (by simp [initPairState])
  by_cases hg : flushGuard (List.foldl pairStep initPairState msgs) = true
  · rw [if_pos hg] at hq
    rcases List.mem_append.mp hq with hq | hq
    · exact hinv q hq
    · have hq' : q = mkPair (List.foldl pairStep initPairState msgs) := by simpa using hq
      rw [hq']
      exact flushGuard_parts _ hg
  · rw [if_neg hg] at hq
    exact hinv q hq

theorem pairStep_count (st : PairState) (m : RawMessage) :
    (pairStep st m).pairs.length + promptBit (pairStep st m) ≤
      st.pairs.length + promptBit st + (if m.role == "user" then 1 else 0) := by
  by_cases hrole : (m.role == "user") = true
  · have hrole' : m.role = "user" := by simpa using hrole
    rw [hrole, if_pos rfl]
    rcases pairStep_pairs_flush_cases st m with hc | ⟨hg, hc⟩
    · have hbit : promptBit (pairStep st m) ≤ 1 := by
        unfold promptBit; split <;> omega
      rw [hc]
      have : promptBit st ≥ 0 := Nat.zero_le _
      omega
    · have hbit : promptBit (pairStep st m) ≤ 1 := by
        unfold promptBit; split <;> omega
      have hbst : promptBit st = 1 := by
        unfold promptBit
        rw [flushGuard_prompt st hg]
        rfl
      rw [hc]
      simp only [List.length_append, List.length_singleton]
      omega
  · have hrole' : (m.role == "user") = false := by simpa using hrole
    obtain ⟨h1, h2⟩ := pairStep_not_user st m hrole'
    rw [h1]
    have : promptBit (pairStep st m) = promptBit st := by
      unfold promptBit
      rw [h2]
    rw [this]
    omega

theorem foldl_pairStep_count (msgs : List RawMessage) (st : PairState) :
    (List.foldl pairStep st msgs).pairs.length +
        promptBit (List.foldl pairStep st msgs) ≤
      st.pairs.length + promptBit st + countUsers msgs := by
  induction msgs generalizing st with
  | nil => simp [countUsers]
  | cons m rest ih =>
    rw [List.foldl_cons]
    have hstep := pairStep_count st m
    have hrec := ih (pairStep st m)
    have hcount : countUsers (m :: rest) =
        (if m.role == "user" then 1 else 0) + countUsers rest := by
      unfold countUsers
      rw [List.filter_cons]
      split <;> simp [Nat.add_comm]
    omega

theorem pair_messages_length_le (msgs : List RawMessage) :
    (pair_messages msgs).length ≤ countUsers msgs := by
  unfold pair_messages
  have h := foldl_pairStep_count msgs initPairState
  have hinit : initPairState.pairs.length + promptBit initPairState = 0 := by
    simp [initPairState, promptBit, optTruthy]
  by_cases hg : flushGuard (List.foldl pairStep initPairState msgs) = true
  · rw [if_pos hg]
    have hbit : promptBit (List.foldl pairStep initPairState msgs) = 1 := by
      unfold promptBit
      rw [flushGuard_prompt _ hg]
      rfl
    simp only [List.length_append, List.length_singleton]
    omega
  · rw [if_neg hg]
    omega

/-! ## Characterizing the answer metadata accumulation -/

theorem updateAnswerMeta_model (am : AnswerMeta) (m : RawMessage) :
    (updateAnswerMeta am m).model =
      if optTruthy m.model then m.model else am.model := by
  unfold updateAnswerMeta
  repeat' split
  all_goals rfl

theorem updateAnswerMeta_provider (am : AnswerMeta) (m : RawMessage) :
    (updateAnswerMeta am m).provider =
      if optTruthy m.provider then m.provider else am.provider := by
  unfold updateAnswerMeta
  repeat' split
  all_goals rfl

theorem updateAnswerMeta_agent (am : AnswerMeta) (m : RawMessage) :
    (updateAnswerMeta am m).agent =
      if optTruthy m.agent then m.agent else am.agent := by
  unfold updateAnswerMeta
  repeat' split
  all_goals rfl

theorem updateAnswerMeta_mode (am : AnswerMeta) (m : RawMessage) :
    (updateAnswerMeta am m).mode =
      if optTruthy m.mode then m.mode else am.mode := by
  unfold updateAnswerMeta
  repeat' split
  all_goals rfl

theorem updateAnswerMeta_tools (am : AnswerMeta) (m : RawMessage) :
    (updateAnswerMeta am m).tools = m.tools.foldl addTool am.tools := by
  unfold updateAnswerMeta
  repeat' split
  all_goals rfl

/-- The per-field accumulator: what one field of `answer_meta` becomes after
seeing one more optional value. -/
def metaFieldStep (acc o : Option String) : Option String :=
  if optTruthy o then o else acc

theorem foldl_updateAnswerMeta_field (msgs : List RawMessage) (am : AnswerMeta)
    (f : RawMessage → Option String) (g : AnswerMeta → Option String)
    (hfg : ∀ am' m, g (updateAnswerMeta am' m) = metaFieldStep (g am') (f m)) :
    g (msgs.foldl updateAnswerMeta am) = (msgs.map f).foldl metaFieldStep (g am) := by
  induction msgs generalizing am with
  | nil => rfl
  | cons m rest ih =>
    rw [List.foldl_cons, ih (updateAnswerMeta am m), List.map_cons,
      List.foldl_cons, hfg]

theorem lastTruthy_eq_foldl (l : List (Option String)) :
    lastTruthy l = l.foldl metaFieldStep none := rfl

theorem mem_addTool (ts : List String) (t u : String) :
    u ∈ addTool ts t ↔ u ∈ ts ∨ u = t := by
  unfold addTool
  split
  next h =>
    constructor
    · exact Or.inl
    · rintro (hu | rfl)
      · exact hu
      · exact h
  · simp

theorem mem_foldl_addTool (l acc : List String) (u : String) :
    u ∈ l.foldl addTool acc ↔ u ∈ acc ∨ u ∈ l := by
  induction l generalizing acc with
  | nil => simp
  | cons t rest ih =>
    rw [List.foldl_cons, ih, mem_addTool]
    simp
    tauto

theorem foldl_updateAnswerMeta_tools_mem (msgs : List RawMessage) (am : AnswerMeta)
    (u : String) :
    u ∈ (msgs.foldl updateAnswerMeta am).tools ↔
      u ∈ am.tools ∨ ∃ m ∈ msgs, u ∈ m.tools := by
  induction msgs generalizing am with
  | nil => simp
  | cons m rest ih =>
    rw [List.foldl_cons, ih, updateAnswerMeta_tools, mem_foldl_addTool]
    simp
    tauto

/-! ## The stable sort -/

theorem mem_insertSorted (le : α → α → Bool) (a x : α) (l : List α) :
    x ∈ insertSorted le a l ↔ x = a ∨ x ∈ l := by
  induction l with
  | nil => simp [insertSorted]
  | cons b bs ih =>
    unfold insertSorted
    split
    · simp [ih]
      tauto
    · simp

theorem insertSorted_perm (le : α → α → Bool) (a : α) (l : List α) :
    (insertSorted le a l).Perm (a :: l) := by
  induction l with
  | nil => exact List.Perm.refl _
  | cons b bs ih =>
    unfold insertSorted
    split
    · exact ((ih.cons b).trans (List.Perm.swap a b bs))
    · exact List.Perm.refl _

theorem foldl_insertSorted_perm (le : α → α → Bool) (l acc : List α) :
    (l.foldl (fun acc x => insertSorted le x acc) acc).Perm (acc ++ l) := by
  induction l generalizing acc with
  | nil => simp
  | cons x xs ih =>
    rw [List.foldl_cons]
    refine (ih (insertSorted le x acc)).trans ?_
    have h1 : (insertSorted le x acc ++ xs).Perm ((x :: acc) ++ xs) :=
      (insertSorted_perm le x acc).append_right xs
    refine h1.trans ?_
    exact List.perm_middle.symm

theorem stableSort_perm (le : α → α → Bool) (l : List α) :
    (stableSort le l).Perm l := by
  simpa using foldl_insertSorted_perm le l []

theorem pairwise_insertSorted (le : α → α → Bool)
    (htrans : ∀ a b c, le a b = true → le b c = true → le a c = true)
    (htot : ∀ a b, le a b = true ∨ le b a = true) (a : α) (l : List α)
    (h : l.Pairwise (fun x y => le x y = true)) :
    (insertSorted le a l).Pairwise (fun x y => le x y = true) := by
  induction l with
  | nil => simp [insertSorted]
  | cons b bs ih =>
    rw [List.pairwise_cons] at h
    obtain ⟨hb, hbs⟩ := h
    unfold insertSorted
    split
    next hle =>
      rw [List.pairwise_cons]
      constructor
      · intro x hx
        rcases (mem_insertSorted le a x bs).mp hx with rfl | hx
        · exact hle
        · exact hb x hx
      · exact ih hbs
    next hle =>
      have hla : le a b = true := by
        rcases htot a b with h' | h'
        · exact h'
        · exact absurd h' hle
      rw [List.pairwise_cons]
      constructor
      · intro x hx
        rcases List.mem_cons.mp hx with rfl | hx
        · exact hla
        · exact htrans a b x hla (hb x hx)
      · exact List.pairwise_cons.mpr ⟨hb, hbs⟩

theorem pairwise_stableSort (le : α → α → Bool)
    (htrans : ∀ a b c, le a b = true → le b c = true → le a c = true)
    (htot : ∀ a b, le a b = true ∨ le b a = true) (l : List α) :
    (stableSort le l).Pairwise (fun x y => le x y = true) := by
  have hgen : ∀ (l' acc : List α), acc.Pairwise (fun x y => le x y = true) →
      (l'.foldl (fun acc x => insertSorted le x acc) acc).Pairwise
        (fun x y => le x y = true) := by
    intro l'
    induction l' with
    | nil => intro acc h; exact h
    | cons x xs ih =>
      intro acc h
      rw [List.foldl_cons]
      exact ih _ (pairwise_insertSorted le htrans htot x acc h)
  exact hgen l [] (by simp)

/-! ## The source merge -/

theorem mergeSessions_nil_right (claude : List (String × List RawMessage)) :
    mergeSessions claude [] = claude := rfl

theorem foldl_mergeStep_disjoint (oc acc : List (String × List RawMessage))
    (hdisj : ∀ kv ∈ oc, (acc.any fun p => p.1 == kv.1) = false)
    (hnd : (oc.map Prod.fst).Nodup) :
    oc.foldl mergeStep acc = acc ++ oc := by
  induction oc generalizing acc with
  | nil => simp
  | cons kv rest ih =>
    rw [List.foldl_cons]
    have hkv : (acc.any fun p => p.1 == kv.1) = false := hdisj kv (by simp)
    have hstep : mergeStep acc kv = acc ++ [kv] := by
      unfold mergeStep
      rw [hkv]
      simp
    rw [hstep]
    rw [List.map_cons, List.nodup_cons] at hnd
    have hdisj' : ∀ kv' ∈ rest, ((acc ++ [kv]).any fun p => p.1 == kv'.1) = false := by
      intro kv' hkv'
      rw [List.any_append]
      have h1 : (acc.any fun p => p.1 == kv'.1) = false := hdisj kv' (by simp [hkv'])
      have h2 : ([kv].any fun p => p.1 == kv'.1) = false := by
        simp only [List.any_cons, List.any_nil, Bool.or_false]
        have hne : kv.1 ≠ kv'.1 := by
          intro he
          exact hnd.1 (he ▸ List.mem_map_of_mem Prod.fst hkv')
        simpa using hne
      rw [h1, h2]
      rfl
    rw [ih (acc ++ [kv]) hdisj' hnd.2, List.append_assoc, List.singleton_append]

theorem mergeSessions_nil_left (oc : List (String × List RawMessage))
    (hnd : (oc.map Prod.fst).Nodup) :
    mergeSessions [] oc = oc := by
  unfold mergeSessions
  rw [foldl_mergeStep_disjoint oc [] (fun kv _ => rfl) hnd]
  rfl

/-! ## The isoformat rendering never ends in Z -/

theorem natDigitsCore_decomp (fuel n : Nat) (acc : List Char) :
    ∃ f, natDigitsCore fuel n acc = f ++ acc ∧
      (fuel ≠ 0 → f.getLast? = some (digitChar (n % 10))) := by
  induction fuel generalizing n acc with
  | zero => exact ⟨[], rfl, fun h => absurd rfl h⟩
  | succ k ih =>
    by_cases h10 : n < 10
    · refine ⟨[digitChar (n % 10)], ?_, fun _ => rfl⟩
      simp [natDigitsCore, h10]
    · obtain ⟨f, hf, _⟩ := ih (n / 10) (digitChar (n % 10) :: acc)
      refine ⟨f ++ [digitChar (n % 10)], ?_, fun _ => List.getLast?_concat f⟩
      simp only [natDigitsCore, h10, if_false, List.append_assoc,
        List.singleton_append]
      exact hf

theorem natChars_getLast (n : Nat) :
    (natChars n).getLast? = some (digitChar (n % 10)) := by
  obtain ⟨f, hf, hl⟩ := natDigitsCore_decomp (n + 1) n []
  unfold natChars
  rw [hf, List.append_nil]
  exact hl (Nat.succ_ne_zero n)

theorem padChars_getLast (w n : Nat) :
    (padChars w (natChars n)).getLast? = some (digitChar (n % 10)) := by
  unfold padChars
  rw [List.getLast?_append, natChars_getLast]
  rfl

theorem digitChar_isDigit (d : Nat) (h : d < 10) : (digitChar d).isDigit = true := by
  interval_cases d <;> decide

theorem isDigit_ne_Z (c : Char) (h : c.isDigit = true) : c ≠ 'Z' := by
  intro he
  rw [he] at h
  exact absurd h (by decide)

theorem isoRender_getLast (year month day hour minute second micro : Nat) :
    ∃ c, (isoRender year month day hour minute second micro).getLast? = some c ∧
      c.isDigit = true := by
  unfold isoRender
  by_cases hm : micro = 0
  · refine ⟨digitChar (second % 10), ?_, digitChar_isDigit _ (Nat.mod_lt second (by decide))⟩
    rw [hm, if_pos rfl, List.append_nil, List.getLast?_append, padChars_getLast]
    rfl
  · refine ⟨digitChar (micro % 10), ?_, digitChar_isDigit _ (Nat.mod_lt micro (by decide))⟩
    rw [if_neg hm, List.getLast?_append, List.getLast?_append]
    have : ('.' :: padChars 6 (natChars micro)).getLast? = some (digitChar (micro % 10)) := by
      have h : '.' :: padChars 6 (natChars micro) = ['.'] ++ padChars 6 (natChars micro) := rfl
      rw [h, List.getLast?_append, padChars_getLast]
      rfl
    rw [this]
    rfl

theorem isoCoreChars_getLast (msTotal : Nat) :
    ∃ c, (isoCoreChars msTotal).getLast? = some c ∧ c.isDigit = true := by
  unfold isoCoreChars
  obtain ⟨y, mo, d, h, mi, s, us⟩ := civilOfMs msTotal
  exact isoRender_getLast y mo d h mi s us

theorem isoformat_last_ne_Z (dt : PyDateTime) :
    ∃ c, (isoformat dt).data.getLast? = some c ∧ c ≠ 'Z' := by
  cases dt with
  | awareUTC t =>
    refine ⟨'0', ?_, by decide⟩
    show (isoCoreChars t ++ ['+', '0', '0', ':', '0', '0']).getLast? = some '0'
    rw [List.getLast?_append]
    rfl
  | naive t =>
    obtain ⟨c, hc, hd⟩ := isoCoreChars_getLast t
    exact ⟨c, hc, isDigit_ne_Z c hd⟩

theorem isoformat_aware_offset (t : Nat) :
    List.IsSuffix ['+', '0', '0', ':', '0', '0'] (isoformat (.awareUTC t)).data :=
  ⟨isoCoreChars t, rfl⟩

/-! ## The state reached after one full turn -/

theorem foldl_turn_state (pre suf : List RawMessage) (u : RawMessage)
    (hrole : u.role = "user") (htext : u.text ≠ "")
    (hall : ∀ m ∈ suf, m.role = "assistant") :
    ∃ P, List.foldl pairStep initPairState (pre ++ u :: suf) =
      { pairs := P
        currentPrompt := some u.text
        promptTime := u.time
        title := u.title
        promptMeta := promptMetaOf u
        answerParts := suf.map RawMessage.text
        answerTime := ((suf.getLast?).map RawMessage.time).getD none
        answerMeta := suf.foldl updateAnswerMeta freshAnswerMeta } := by
  rw [List.foldl_append, List.foldl_cons]
  obtain ⟨l, hl⟩ :=
    pairStep_user_opens (List.foldl pairStep initPairState pre) u hrole
  rw [hl]
  have hbeq : (u.text == "") = false := by simpa using htext
  rw [foldl_pairStep_assistants suf _ u.text rfl hbeq hall]
  exact ⟨(List.foldl pairStep initPairState pre).pairs ++ l, by simp⟩

/-- C1: on a user message while a pair is accumulating (truthy pending
prompt) with at least one assistant part already appended, the loop emits the
current pair and opens a new pair from that user message; in particular the
session [user A, assistant B, user C, assistant D] yields exactly the two
pairs (A, B) and (C, D). -/
theorem claim_C1_flush_and_reopen :
    (∀ (st : PairState) (m : RawMessage), m.role = "user" →
        optTruthy st.currentPrompt = true → st.answerParts ≠ [] →
        (pairStep st m).pairs = st.pairs ++ [mkPair st] ∧
          (pairStep st m).currentPrompt = some m.text ∧
          (pairStep st m).promptTime = m.time ∧
          (pairStep st m).answerParts = [] ∧
          (pairStep st m).answerMeta = freshAnswerMeta) ∧
      (pair_messages exSessionABCD).map (fun q => (q.prompt, q.answer)) =
        [("A", "B"), ("C", "D")] := by
  constructor
  · intro st m hrole hp hparts
    rw [pairStep_user_flush st m hrole hp hparts]
    exact ⟨rfl, rfl, rfl, rfl, rfl⟩
  · decide

/-- Witness for C1 at a concrete accumulating state and user message. -/
theorem claim_C1_flush_and_reopen_witness :
    (pairStep exAccumState (mkUserMsg "C" 3)).pairs =
        exAccumState.pairs ++ [mkPair exAccumState] ∧
      (pairStep exAccumState (mkUserMsg "C" 3)).currentPrompt =
        some (mkUserMsg "C" 3).text ∧
      (pairStep exAccumState (mkUserMsg "C" 3)).promptTime = (mkUserMsg "C" 3).time ∧
      (pairStep exAccumState (mkUserMsg "C" 3)).answerParts = [] ∧
      (pairStep exAccumState (mkUserMsg "C" 3)).answerMeta = freshAnswerMeta :=
  claim_C1_flush_and_reopen.1 exAccumState (mkUserMsg "C" 3) rfl (by decide) (by decide)

/-- C2: on a user message while the accumulating pair has zero assistant
contributions, the new prompt replaces the pending one and nothing is
emitted (the pairs list is unchanged, so the replaced prompt is never
emitted); in particular [user A, user C, assistant D] yields exactly the one
pair (C, D). -/
theorem claim_C2_replace_pending_prompt :
    (∀ (st : PairState) (m : RawMessage), m.role = "user" → st.answerParts = [] →
        (pairStep st m).pairs = st.pairs ∧
          (pairStep st m).currentPrompt = some m.text) ∧
      (pair_messages exSessionACD).map (fun q => (q.prompt, q.answer)) =
        [("C", "D")] := by
  constructor
  · intro st m hrole hparts
    rw [pairStep_user_noflush st m hrole hparts]
    exact ⟨rfl, rfl⟩
  · decide

/-- Witness for C2 at the initial state and a concrete user message. -/
theorem claim_C2_replace_pending_prompt_witness :
    (pairStep initPairState (mkUserMsg "C" 3)).pairs = initPairState.pairs ∧
      (pairStep initPairState (mkUserMsg "C" 3)).currentPrompt =
        some (mkUserMsg "C" 3).text :=
  claim_C2_replace_pending_prompt.1 initPairState (mkUserMsg "C" 3) rfl rfl

/-- C3: every emitted pair carries at least one assistant contribution (its
parts list is nonempty; an answerless prompt is never emitted), and the
number of emitted pairs is at most the number of user messages of the
session. -/
theorem claim_C3_answered_pairs_and_count :
    (∀ (msgs : List RawMessage), ∀ q ∈ pair_messages msgs, q.answerParts ≠ []) ∧
      ∀ (msgs : List RawMessage), (pair_messages msgs).length ≤ countUsers msgs :=
  ⟨fun msgs => pair_messages_parts_nonempty msgs,
    fun msgs => pair_messages_length_le msgs⟩

/-- Witness for C3 at a concrete session and emitted pair. -/
theorem claim_C3_answered_pairs_and_count_witness :
    (mkPair exAccumState).answerParts ≠ [] ∧
      (pair_messages exSessionABCD).length ≤ countUsers exSessionABCD :=
  ⟨claim_C3_answered_pairs_and_count.1 [mkUserMsg "A" 1, mkAsstMsg "B" 2]
      (mkPair exAccumState) (by decide),
    claim_C3_answered_pairs_and_count.2 exSessionABCD⟩

theorem pair_messages_def (msgs : List RawMessage) :
    pair_messages msgs =
      if flushGuard (List.foldl pairStep initPairState msgs) = true then
        (List.foldl pairStep initPairState msgs).pairs ++
          [mkPair (List.foldl pairStep initPairState msgs)]
      else (List.foldl pairStep initPairState msgs).pairs := rfl

/-- C4: the answer of an emitted pair is the newline join, in arrival order,
of the texts of all assistant messages between the prompt and the next user
message (second conjunct) or the end of the session (first conjunct), and
its answer time is the time of the last contributing assistant message.
The session [user A, assistant B1, assistant B2] instantiates the first
conjunct with answer "B1\nB2" and answer time B2 (see the witness). -/
theorem claim_C4_answer_join_and_time :
    (∀ (pre suf : List RawMessage) (u : RawMessage), u.role = "user" →
        u.text ≠ "" → suf ≠ [] → (∀ m ∈ suf, m.role = "assistant") →
        ∃ q, (pair_messages (pre ++ u :: suf)).getLast? = some q ∧
          q.prompt = u.text ∧
          q.answerParts = suf.map RawMessage.text ∧
          q.answer = String.intercalate "\n" (suf.map RawMessage.text) ∧
          ∃ a, suf.getLast? = some a ∧ q.answerTime = a.time) ∧
      ∀ (pre suf rest : List RawMessage) (u u2 : RawMessage), u.role = "user" →
        u.text ≠ "" → suf ≠ [] → (∀ m ∈ suf, m.role = "assistant") →
        u2.role = "user" →
        ∃ l1 l2 q, pair_messages (pre ++ u :: (suf ++ u2 :: rest)) = l1 ++ q :: l2 ∧
          q.prompt = u.text ∧
          q.answerParts = suf.map RawMessage.text ∧
          ∃ a, suf.getLast? = some a ∧ q.answerTime = a.time := by
  have hbase : ∀ (pre suf : List RawMessage) (u : RawMessage), u.role = "user" →
      u.text ≠ "" → suf ≠ [] → (∀ m ∈ suf, m.role = "assistant") →
      ∃ P a, suf.getLast? = some a ∧
        List.foldl pairStep initPairState (pre ++ u :: suf) =
          { pairs := P
            currentPrompt := some u.text
            promptTime := u.time
            title := u.title
            promptMeta := promptMetaOf u
            answerParts := suf.map RawMessage.text
            answerTime := a.time
            answerMeta := suf.foldl updateAnswerMeta freshAnswerMeta } := by
    intro pre suf u hrole htext hne hall
    obtain ⟨P, hP⟩ := foldl_turn_state pre suf u hrole htext hall
    obtain ⟨a, ha⟩ := Option.isSome_iff_exists.mp
      (by simpa [List.getLast?_isSome] using hne : suf.getLast?.isSome)
    refine ⟨P, a, ha, ?_⟩
    rw [hP, ha]
    rfl
  constructor
  · intro pre suf u hrole htext hne hall
    obtain ⟨P, a, ha, hfold⟩ := hbase pre suf u hrole htext hne hall
    have hguard : flushGuard (List.foldl pairStep initPairState (pre ++ u :: suf)) = true := by
      rw [hfold]
      simp [flushGuard, optTruthy, htext, List.isEmpty_iff, List.map_eq_nil_iff, hne]
    refine ⟨mkPair (List.foldl pairStep initPairState (pre ++ u :: suf)),
      ?_, ?_, ?_, ?_, a, ha, ?_⟩
    · rw [pair_messages_def, if_pos hguard, List.getLast?_concat]
    · rw [hfold]; rfl
    · rw [hfold]; rfl
    · rw [hfold]; rfl
    · rw [hfold]; rfl
  · intro pre suf rest u u2 hrole htext hne hall hrole2
    obtain ⟨P, a, ha, hfold⟩ := hbase pre suf u hrole htext hne hall
    have hw : List.foldl pairStep initPairState (pre ++ u :: (suf ++ u2 :: rest)) =
        List.foldl pairStep
          (pairStep (List.foldl pairStep initPairState (pre ++ u :: suf)) u2) rest := by
      have hsp : pre ++ u :: (suf ++ u2 :: rest) = (pre ++ u :: suf) ++ u2 :: rest := by
        simp
      rw [hsp, List.foldl_append, List.foldl_cons]
    have hstep2 :
        (pairStep (List.foldl pairStep initPairState (pre ++ u :: suf)) u2).pairs =
          P ++ [mkPair (List.foldl pairStep initPairState (pre ++ u :: suf))] := by
      rw [pairStep_user_flush _ u2 hrole2
        (by rw [hfold]; simp [optTruthy, htext])
        (by rw [hfold]; simpa [List.map_eq_nil_iff] using hne)]
      rw [hfold]
    obtain ⟨l, hl⟩ := foldl_pairStep_pairs_mono rest
      (pairStep (List.foldl pairStep initPairState (pre ++ u :: suf)) u2)
    rw [hstep2] at hl
    have hq1 : (mkPair (List.foldl pairStep initPairState (pre ++ u :: suf))).prompt =
        u.text := by rw [hfold]; rfl
    have hq2 : (mkPair (List.foldl pairStep initPairState (pre ++ u :: suf))).answerParts =
        suf.map RawMessage.text := by rw [hfold]; rfl
    have hq3 : (mkPair (List.foldl pairStep initPairState (pre ++ u :: suf))).answerTime =
        a.time := by rw [hfold]; rfl
    rw [pair_messages_def, hw]
    by_cases hg : flushGuard (List.foldl pairStep
        (pairStep (List.foldl pairStep initPairState (pre ++ u :: suf)) u2) rest) = true
    · refine ⟨P, l ++ [mkPair (List.foldl pairStep
          (pairStep (List.foldl pairStep initPairState (pre ++ u :: suf)) u2) rest)],
        mkPair (List.foldl pairStep initPairState (pre ++ u :: suf)),
        ?_, hq1, hq2, a, ha, hq3⟩
      rw [if_pos hg, hl]
      simp
    · refine ⟨P, l, mkPair (List.foldl pairStep initPairState (pre ++ u :: suf)),
        ?_, hq1, hq2, a, ha, hq3⟩
      rw [if_neg hg, hl]
      simp

/-- Witness for C4: the session [user A, assistant B1, assistant B2] yields a
final pair with answer "B1\nB2" and the answer time of B2. -/
theorem claim_C4_answer_join_and_time_witness :
    ∃ q, (pair_messages ([] ++ mkUserMsg "A" 1 ::
        [mkAsstMsg "B1" 2, mkAsstMsg "B2" 3])).getLast? = some q ∧
      q.prompt = (mkUserMsg "A" 1).text ∧
      q.answerParts = [mkAsstMsg "B1" 2, mkAsstMsg "B2" 3].map RawMessage.text ∧
      q.answer = String.intercalate "\n"
        ([mkAsstMsg "B1" 2, mkAsstMsg "B2" 3].map RawMessage.text) ∧
      ∃ a, [mkAsstMsg "B1" 2, mkAsstMsg "B2" 3].getLast? = some a ∧
        q.answerTime = a.time :=
  claim_C4_answer_join_and_time.1 [] [mkAsstMsg "B1" 2, mkAsstMsg "B2" 3]
    (mkUserMsg "A" 1) rfl (by decide) (by decide) (by decide)

/-! ## C5 -/

theorem turn_final_state (pre suf : List RawMessage) (u : RawMessage)
    (hrole : u.role = "user") (htext : u.text ≠ "") (hne : suf ≠ [])
    (hall : ∀ m ∈ suf, m.role = "assistant") :
    ∃ q, (pair_messages (pre ++ u :: suf)).getLast? = some q ∧
      q.answerMeta = suf.foldl updateAnswerMeta freshAnswerMeta := by
  obtain ⟨P, hP⟩ := foldl_turn_state pre suf u hrole htext hall
  have hguard : flushGuard (List.foldl pairStep initPairState (pre ++ u :: suf)) = true := by
    rw [hP]
    simp [flushGuard, optTruthy, htext, List.isEmpty_iff, List.map_eq_nil_iff, hne]
  refine ⟨mkPair (List.foldl pairStep initPairState (pre ++ u :: suf)), ?_, ?_⟩
  · rw [pair_messages_def, if_pos hguard, List.getLast?_concat]
  · rw [hP]
    rfl

/-- C5 counterexample: the claim states each answer_meta field holds the last
NON-NULL value seen across the contributing assistant messages.  In
`exSessionEmptyModel` the second assistant message carries the non-null model
value "" (the empty string), so the last non-null value is some ""; the code,
which tests Python truthiness rather than null-ness, keeps "m1". -/
theorem claim_C5_counterexample :
    (pair_messages exSessionEmptyModel).map (fun q => q.answerMeta.model) =
        [some "m1"] ∧
      lastNonNull ((exSessionEmptyModel.drop 1).map RawMessage.model) = some "" ∧
      ¬ ((pair_messages exSessionEmptyModel).map (fun q => q.answerMeta.model) =
          [lastNonNull ((exSessionEmptyModel.drop 1).map RawMessage.model)]) := by
  decide

/-- C5 (amended): each of the answer_meta fields model, provider, agent and
mode holds the last TRUTHY value (non-null and non-empty; null and
empty-string values never overwrite) seen across the contributing assistant
messages, and the tool set is the union of the contributing messages' tool
names — membership-idempotent and independent of the message order within
the turn. -/
theorem claim_C5_last_truthy_meta :
    (∀ (pre suf : List RawMessage) (u : RawMessage), u.role = "user" →
        u.text ≠ "" → suf ≠ [] → (∀ m ∈ suf, m.role = "assistant") →
        ∃ q, (pair_messages (pre ++ u :: suf)).getLast? = some q ∧
          q.answerMeta.model = lastTruthy (suf.map RawMessage.model) ∧
          q.answerMeta.provider = lastTruthy (suf.map RawMessage.provider) ∧
          q.answerMeta.agent = lastTruthy (suf.map RawMessage.agent) ∧
          q.answerMeta.mode = lastTruthy (suf.map RawMessage.mode) ∧
          ∀ t, t ∈ q.answerMeta.tools ↔ ∃ m ∈ suf, t ∈ m.tools) ∧
      ∀ (msgs msgs' : List RawMessage) (am : AnswerMeta), msgs.Perm msgs' →
        ∀ t, t ∈ (msgs.foldl updateAnswerMeta am).tools ↔
          t ∈ (msgs'.foldl updateAnswerMeta am).tools := by
  constructor
  · intro pre suf u hrole htext hne hall
    obtain ⟨q, hq, hmeta⟩ := turn_final_state pre suf u hrole htext hne hall
    refine ⟨q, hq, ?_, ?_, ?_, ?_, ?_⟩
    · rw [hmeta, lastTruthy_eq_foldl,
        foldl_updateAnswerMeta_field suf freshAnswerMeta RawMessage.model
          (fun am => am.model) (fun am' m => updateAnswerMeta_model am' m)]
      rfl
    · rw [hmeta, lastTruthy_eq_foldl,
        foldl_updateAnswerMeta_field suf freshAnswerMeta RawMessage.provider
          (fun am => am.provider) (fun am' m => updateAnswerMeta_provider am' m)]
      rfl
    · rw [hmeta, lastTruthy_eq_foldl,
        foldl_updateAnswerMeta_field suf freshAnswerMeta RawMessage.agent
          (fun am => am.agent) (fun am' m => updateAnswerMeta_agent am' m)]
      rfl
    · rw [hmeta, lastTruthy_eq_foldl,
        foldl_updateAnswerMeta_field suf freshAnswerMeta RawMessage.mode
          (fun am => am.mode) (fun am' m => updateAnswerMeta_mode am' m)]
      rfl
    · intro t
      rw [hmeta, foldl_updateAnswerMeta_tools_mem]
      simp [freshAnswerMeta]
  · intro msgs msgs' am hperm t
    rw [foldl_updateAnswerMeta_tools_mem, foldl_updateAnswerMeta_tools_mem]
    constructor
    · rintro (h | ⟨m, hm, ht⟩)
      · exact Or.inl h
      · exact Or.inr ⟨m, hperm.mem_iff.mp hm, ht⟩
    · rintro (h | ⟨m, hm, ht⟩)
      · exact Or.inl h
      · exact Or.inr ⟨m, hperm.mem_iff.mpr hm, ht⟩

/-- Witness for the amended C5 at the turn with tool sets {x} then {x, y}. -/
theorem claim_C5_last_truthy_meta_witness :
    ∃ q, (pair_messages ([] ++ mkUserMsg "A" 1 ::
        [mkAsstMeta "B1" 2 none ["x"], mkAsstMeta "B2" 3 none ["x", "y"]])).getLast? =
          some q ∧
      q.answerMeta.model = lastTruthy
        ([mkAsstMeta "B1" 2 none ["x"], mkAsstMeta "B2" 3 none ["x", "y"]].map
          RawMessage.model) ∧
      q.answerMeta.provider = lastTruthy
        ([mkAsstMeta "B1" 2 none ["x"], mkAsstMeta "B2" 3 none ["x", "y"]].map
          RawMessage.provider) ∧
      q.answerMeta.agent = lastTruthy
        ([mkAsstMeta "B1" 2 none ["x"], mkAsstMeta "B2" 3 none ["x", "y"]].map
          RawMessage.agent) ∧
      q.answerMeta.mode = lastTruthy
        ([mkAsstMeta "B1" 2 none ["x"], mkAsstMeta "B2" 3 none ["x", "y"]].map
          RawMessage.mode) ∧
      ∀ t, t ∈ q.answerMeta.tools ↔
        ∃ m ∈ [mkAsstMeta "B1" 2 none ["x"], mkAsstMeta "B2" 3 none ["x", "y"]],
          t ∈ m.tools :=
  claim_C5_last_truthy_meta.1 []
    [mkAsstMeta "B1" 2 none ["x"], mkAsstMeta "B2" 3 none ["x", "y"]]
    (mkUserMsg "A" 1) rfl (by decide) (by decide) (by decide)

/-! ## C6 -/

/-- C6 counterexample: the claim says messages with a missing timestamp sort
LAST within a session.  `exSessionNaiveKeys` has uniformly naive keys, so the
real `sorted` call returns (no `TypeError`): the untimed message gets the
fallback key `datetime.min`, the minimum, and comes FIRST — the timed
message, not the untimed one, is last. -/
theorem claim_C6_counterexample :
    sortMessagesChecked exSessionNaiveKeys =
        Except.ok [exMsgNoTime, exMsgNaiveTimed] ∧
      exMsgNoTime.time = none ∧
      exMsgNaiveTimed.time = some (PyDateTime.naive 5) ∧
      ¬ ((sort_messages exSessionNaiveKeys).getLast?.map (fun m => m.time) =
          some none) :=
  ⟨rfl, rfl, rfl, by decide⟩

/-- C6 (amended): when the Session Grouper sorts a session by timestamp
ascending, a message with a missing timestamp receives the fallback key
`datetime.min`, the minimum possible value.  When the session keys mix aware
and naive datetimes (e.g. a claude session with a missing timestamp next to
aware ones) the sort raises `TypeError` instead of returning; otherwise it
returns a permutation of the session, pairwise ordered by key, in which the
missing-timestamp messages carry the minimal key and therefore sort FIRST,
not last. -/
theorem claim_C6_missing_times_sort_first (messages : List RawMessage) :
    (sortKeyKindsMixed messages = true →
        sortMessagesChecked messages =
          Except.error "TypeError: can't compare offset-naive and offset-aware datetimes") ∧
      (sortKeyKindsMixed messages = false →
        sortMessagesChecked messages = Except.ok (sort_messages messages) ∧
          (sort_messages messages).Perm messages ∧
          (sort_messages messages).Pairwise (fun a b => msgKey a ≤ msgKey b) ∧
          ∀ m, m.time = none → ∀ m', msgKey m ≤ msgKey m') := by
  constructor
  · intro h
    simp [sortMessagesChecked, h]
  · intro h
    refine ⟨by simp [sortMessagesChecked, h], stableSort_perm _ _, ?_, ?_⟩
    · have hp := pairwise_stableSort (fun a b => decide (msgKey a ≤ msgKey b))
        (fun a b c hab hbc => by
          simp only [decide_eq_true_eq] at hab hbc ⊢
          omega)
        (fun a b => by
          rcases Nat.le_total (msgKey a) (msgKey b) with h' | h'
          · exact Or.inl (by simpa using h')
          · exact Or.inr (by simpa using h'))
        messages
      exact hp.imp (fun hab => by simpa using hab)
    · intro m hm m'
      unfold msgKey
      rw [hm]
      exact Nat.zero_le _

/-- Witness for the amended C6: the aware-plus-missing session raises the
`TypeError`, the uniformly naive session sorts, and within it the untimed
message has the minimal key. -/
theorem claim_C6_missing_times_sort_first_witness :
    sortMessagesChecked exSessionMixedTimes =
        Except.error "TypeError: can't compare offset-naive and offset-aware datetimes" ∧
      sortMessagesChecked exSessionNaiveKeys =
        Except.ok (sort_messages exSessionNaiveKeys) ∧
      msgKey exMsgNoTime ≤ msgKey exMsgNaiveTimed :=
  ⟨(claim_C6_missing_times_sort_first exSessionMixedTimes).1 (by decide),
    ((claim_C6_missing_times_sort_first exSessionNaiveKeys).2 (by decide)).1,
    (((claim_C6_missing_times_sort_first exSessionNaiveKeys).2 (by decide)).2.2.2)
      exMsgNoTime rfl exMsgNaiveTimed⟩

/-! ## C7 -/

/-- C7: the Token Counter returns a non-negative integer; null or empty text
yields 0 regardless of tokenizer availability, and without a tokenizer the
count is the whitespace-split word count — 3 for "alpha beta  gamma". -/
theorem claim_C7_token_counter :
    (∀ tokenizer, count_tokens none tokenizer = 0) ∧
      (∀ tokenizer, count_tokens (some "") tokenizer = 0) ∧
      count_tokens (some "alpha beta  gamma") none = 3 ∧
      ∀ text tokenizer, 0 ≤ count_tokens text tokenizer :=
  ⟨fun _ => rfl, fun _ => rfl, by decide, fun _ _ => Nat.zero_le _⟩

/-! ## C8 -/

/-- C8 counterexample: the claim says serialized prompt_time and answer_time
are null or ISO-8601 strings ending in a Z UTC suffix.  The concrete exported
row of `exSessionSerialized` serializes both as ISO-8601 strings ending in
"+00:00" — Python `isoformat()` never appends `Z`. -/
theorem claim_C8_counterexample :
    (exportRows exSessionSerialized none).map (fun r => r.prompt_time) =
        [some "0001-01-01T00:00:00+00:00"] ∧
      (exportRows exSessionSerialized none).map (fun r => r.answer_time) =
        [some "0001-01-01T00:00:01+00:00"] ∧
      ¬ (("0001-01-01T00:00:00+00:00" : String).data.getLast? = some 'Z') := by
  decide

/-- C8 (amended): in every emitted output record, prompt_time and answer_time
are either null or an ISO-8601 string that does NOT end with the Z suffix:
timezone-aware UTC values (the claude `parse_iso` route) end with the
"+00:00" offset, and naive values (the opencode `fromtimestamp` route) end
with a digit and carry no offset. -/
theorem claim_C8_iso_times_no_Z :
    (∀ (sessions : List (String × List RawMessage))
        (tokenizer : Option (String → Nat)),
        ∀ row ∈ exportRows sessions tokenizer,
          (row.prompt_time = none ∨ ∃ s c, row.prompt_time = some s ∧
            s.data.getLast? = some c ∧ c ≠ 'Z') ∧
          (row.answer_time = none ∨ ∃ s c, row.answer_time = some s ∧
            s.data.getLast? = some c ∧ c ≠ 'Z')) ∧
      (∀ t, List.IsSuffix ['+', '0', '0', ':', '0', '0']
        (isoformat (PyDateTime.awareUTC t)).data) ∧
      ∀ t, ∃ c, (isoformat (PyDateTime.naive t)).data.getLast? = some c ∧
        c.isDigit = true := by
  refine ⟨?_, isoformat_aware_offset, fun t => isoCoreChars_getLast t⟩
  intro sessions tokenizer row hrow
  obtain ⟨kv, _, hrow2⟩ := List.mem_flatMap.mp hrow
  obtain ⟨p, _, hbuild⟩ := List.mem_map.mp hrow2
  constructor
  · cases hpt : p.promptTime with
    | none =>
      left
      rw [← hbuild]
      simp [buildRow, serializeTime, hpt]
    | some dt =>
      right
      obtain ⟨c, hc, hz⟩ := isoformat_last_ne_Z dt
      refine ⟨isoformat dt, c, ?_, hc, hz⟩
      rw [← hbuild]
      simp [buildRow, serializeTime, hpt]
  · cases hat : p.answerTime with
    | none =>
      left
      rw [← hbuild]
      simp [buildRow, serializeTime, hat]
    | some dt =>
      right
      obtain ⟨c, hc, hz⟩ := isoformat_last_ne_Z dt
      refine ⟨isoformat dt, c, ?_, hc, hz⟩
      rw [← hbuild]
      simp [buildRow, serializeTime, hat]

/-- Witness for the amended C8 at the concrete exported row of
`exSessionSerialized`. -/
theorem claim_C8_iso_times_no_Z_witness :
    ((buildRow "s" none exSerializedPair).prompt_time = none ∨
        ∃ s c, (buildRow "s" none exSerializedPair).prompt_time = some s ∧
          s.data.getLast? = some c ∧ c ≠ 'Z') ∧
      ((buildRow "s" none exSerializedPair).answer_time = none ∨
        ∃ s c, (buildRow "s" none exSerializedPair).answer_time = some s ∧
          s.data.getLast? = some c ∧ c ≠ 'Z') :=
  claim_C8_iso_times_no_Z.1 exSessionSerialized none
    (buildRow "s" none exSerializedPair) (by decide)

/-! ## C9 -/

/-- C9 counterexample: the claim says that with one source empty the pipeline
still completes on the other source alone, failing only when ALL sources are
empty.  Here the claude source is empty and the opencode source is NOT (it
carries a session with one answerless user message), yet the run fails with
the "No pairs found" signal: the gate triggers on zero produced pairs, not on
all sources being empty. -/
theorem claim_C9_counterexample :
    exOpencodeOnlySessions ≠ [] ∧
      pipelineRun [] exOpencodeOnlySessions none =
        Except.error "No pairs found. Run export_pairs.py first." :=
  ⟨by decide, by rfl⟩

/-- C9 (amended): when one source yields nothing the merge is exactly the
other source's sessions, so pairing proceeds on those alone; the run fails
with the "No pairs found" message exactly when zero pair rows are produced —
in particular when ALL sources are empty — and completes with the rows
otherwise. -/
theorem claim_C9_empty_source_handling :
    (∀ (claude : List (String × List RawMessage)), mergeSessions claude [] = claude) ∧
      (∀ (opencode : List (String × List RawMessage)),
        (opencode.map Prod.fst).Nodup → mergeSessions [] opencode = opencode) ∧
      (∀ (claude opencode : List (String × List RawMessage))
          (tokenizer : Option (String → Nat)),
        (pipelineRun claude opencode tokenizer =
            Except.error "No pairs found. Run export_pairs.py first." ↔
          exportRows (mergeSessions claude opencode) tokenizer = []) ∧
        (pipelineRun claude opencode tokenizer =
            Except.ok (exportRows (mergeSessions claude opencode) tokenizer) ↔
          exportRows (mergeSessions claude opencode) tokenizer ≠ [])) ∧
      ∀ (tokenizer : Option (String → Nat)),
        pipelineRun [] [] tokenizer =
          Except.error "No pairs found. Run export_pairs.py first." := by
  refine ⟨mergeSessions_nil_right, mergeSessions_nil_left, ?_, fun _ => rfl⟩
  intro claude opencode tokenizer
  unfold pipelineRun statsGate
  by_cases he : exportRows (mergeSessions claude opencode) tokenizer = []
  · rw [he]
    simp
  · rw [if_neg (by simpa [List.isEmpty_iff] using he)]
    simp [he]

/-- Witness for the amended C9: merging an empty claude source with the
concrete opencode source leaves the opencode sessions untouched. -/
theorem claim_C9_empty_source_handling_witness :
    mergeSessions [] exOpencodeOnlySessions = exOpencodeOnlySessions :=
  claim_C9_empty_source_handling.2.1 exOpencodeOnlySessions (by decide)

/-! ## C10 -/

theorem pairStep_answerMeta_cases (st : PairState) (m : RawMessage) :
    (pairStep st m).answerMeta = freshAnswerMeta ∨
      ((pairStep st m).answerMeta = updateAnswerMeta st.answerMeta m ∧
        m.role = "assistant") ∨
      (pairStep st m).answerMeta = st.answerMeta := by
  unfold pairStep
  split
  · split
    · exact Or.inl rfl
    · exact Or.inl rfl
  · split
    next hcond =>
      have hrole : m.role = "assistant" := by
        have := (Bool.and_eq_true _ _).mp hcond
        simpa using this.1
      exact Or.inr (Or.inl ⟨rfl, hrole⟩)
    · exact Or.inr (Or.inr rfl)

theorem foldl_pairStep_tools_empty (msgs : List RawMessage) (st : PairState)
    (hst : st.answerMeta.tools = [])
    (hpairs : ∀ q ∈ st.pairs, q.answerMeta.tools = [])
    (hmsgs : ∀ m ∈ msgs, m.role = "assistant" → m.tools = []) :
    (∀ q ∈ (List.foldl pairStep st msgs).pairs, q.answerMeta.tools = []) ∧
      (List.foldl pairStep st msgs).answerMeta.tools = [] := by
  induction msgs generalizing st with
  | nil => exact ⟨hpairs, hst⟩
  | cons m rest ih =>
    rw [List.foldl_cons]
    have hmeta : (pairStep st m).answerMeta.tools = [] := by
      rcases pairStep_answerMeta_cases st m with h | ⟨h, hrole⟩ | h
      · rw [h]; rfl
      · rw [h, updateAnswerMeta_tools, hmsgs m (by simp) hrole, hst]
        rfl
      · rw [h, hst]
    have hpairs' : ∀ q ∈ (pairStep st m).pairs, q.answerMeta.tools = [] := by
      rcases pairStep_pairs_flush_cases st m with h | ⟨_, h⟩
      · rw [h]; exact hpairs
      · rw [h]
        intro q hq
        rcases List.mem_append.mp hq with hq | hq
        · exact hpairs q hq
        · have hq' : q = mkPair st := by simpa using hq
          rw [hq']
          exact hst
    exact ih (pairStep st m) hmeta hpairs'
      (fun x hx hr => hmsgs x (by simp [hx]) hr)

/-- C10: every RawMessage the opencode loader emits carries an empty tools
collection (even for assistant messages), and pairing a session whose
assistant contributions all carry empty tools (as every opencode message
does) yields pairs with an empty tool set, which serialize with an empty
answer_tools list — tool names are ever populated only from the claude
source. -/
theorem claim_C10_opencode_empty_tools :
    (∀ (titles : String → Option String)
        (includeSystem excludeSuggestionMode includeIdeEvents : Bool)
        (msg : OcMessage) (rm : RawMessage),
        opencodeMessageToRaw titles includeSystem excludeSuggestionMode
          includeIdeEvents msg = some rm → rm.tools = []) ∧
      (∀ (msgs : List RawMessage),
        (∀ m ∈ msgs, m.role = "assistant" → m.tools = []) →
        ∀ q ∈ pair_messages msgs, q.answerMeta.tools = []) ∧
      ∀ (sessionId : String) (tokenizer : Option (String → Nat))
        (p : PromptAnswerPair), p.answerMeta.tools = [] →
        (buildRow sessionId tokenizer p).answer_tools = [] := by
  refine ⟨?_, ?_, ?_⟩
  · intro titles a b c msg rm h
    unfold opencodeMessageToRaw at h
    dsimp only at h
    repeat' split at h
    all_goals first
      | exact Option.noConfusion h
      | (injection h with h2; rw [← h2])
  · intro msgs hmsgs q hq
    obtain ⟨hpairs, hfin⟩ := foldl_pairStep_tools_empty msgs initPairState rfl
      (by simp [initPairState]) hmsgs
    rw [pair_messages_def] at hq
    split at hq
    · rcases List.mem_append.mp hq with hq | hq
      · exact hpairs q hq
      · have hq' : q = mkPair (List.foldl pairStep initPairState msgs) := by
          simpa using hq
        rw [hq']
        exact hfin
    · exact hpairs q hq
  · intro sessionId tokenizer p hp
    show stableSort strLeb p.answerMeta.tools = []
    rw [hp]
    rfl

/-- Witness for C10 at a concrete opencode message and resulting pair. -/
theorem claim_C10_opencode_empty_tools_witness :
    exOcRaw.tools = [] ∧
      (mkPair exAccumState).answerMeta.tools = [] ∧
      (buildRow "s" none exSerializedPair).answer_tools = [] :=
  ⟨claim_C10_opencode_empty_tools.1 (fun _ => none) false true false exOcMessage
      exOcRaw (by decide),
    claim_C10_opencode_empty_tools.2.1 [mkUserMsg "A" 1, mkAsstMsg "B" 2]
      (by decide) (mkPair exAccumState) (by decide),
    claim_C10_opencode_empty_tools.2.2 "s" none exSerializedPair (by decide)⟩

/-- Witness for C7 at a concrete tokenizer and texts. -/
theorem claim_C7_token_counter_witness :
    count_tokens none (some (fun s => s.length)) = 0 ∧
      count_tokens (some "") (some (fun s => s.length)) = 0 ∧
      count_tokens (some "alpha beta  gamma") none = 3 ∧
      0 ≤ count_tokens (some "alpha") none :=
  ⟨claim_C7_token_counter.1 (some (fun s => s.length)),
    claim_C7_token_counter.2.1 (some (fun s => s.length)),
    claim_C7_token_counter.2.2.1,
    claim_C7_token_counter.2.2.2 (some "alpha") none⟩
